import Mathlib

/-!
Shallow embedding of the ViewChecker backend's compliance-scoring and
exception-adjustment engine (`src/analyzer.js` and `src/exceptionHandler.js`).

JavaScript values the engine inspects are modelled by `JVal`: exact
rationals stand for JS numbers (the engine's own arithmetic produces only
integers and half-integer means, so IEEE-754 rounding never changes a
result on the modelled paths, and `NaN` does not arise on them), and
the `undefined` constructor stands for both JS `undefined` and `null`.  Object fields that the
engine never reads or writes are carried verbatim by its
`JSON.parse(JSON.stringify(...))` deep copy and are omitted from the
record types.

The arithmetic on ℚ from the standard library is marked irreducible for
performance; concrete evaluation of the embedded functions (witnesses,
counterexamples) needs it to unfold, so it is made semireducible for
this file.
-/

set_option allowUnsafeReducibility true
attribute [local semireducible] Rat.add Rat.mul Rat.sub Rat.div Rat.inv Rat.ofScientific

/-- Model of a JavaScript value as inspected by the engine: a number, a
string, an array of strings (the shape of every array field the engine
writes: `issues`, `passed`, `compliance` of a token detail), a boolean,
or `undefined`/`null`. -/
inductive JVal where
  | num (q : ℚ)
  | str (s : String)
  | arr (elems : List String)
  | bool (b : Bool)
  | undefined
  deriving DecidableEq

/-- JavaScript truthiness: `0`, `""`, `false` and `undefined`/`null` are
falsy; every array (even an empty one) is truthy. -/
def JVal.truthy : JVal → Bool
  | .num q => q != 0
  | .str s => s != ""
  | .arr _ => true
  | .bool b => b
  | .undefined => false

/-- JavaScript `a || b`. -/
def jsOr (a b : JVal) : JVal := if a.truthy then a else b

/-- JavaScript `typeof v === 'number'`. -/
def JVal.isNum : JVal → Bool
  | .num _ => true
  | _ => false

/-- JavaScript `typeof v === 'string'`. -/
def JVal.isStr : JVal → Bool
  | .str _ => true
  | _ => false

/-- JavaScript `Math.round`: round half toward positive infinity,
`⌊x + 1/2⌋` (stated computably via `Rat.floor`). -/
def jsRound (x : ℚ) : ℤ := (x + 1/2).floor

/-- JavaScript subtraction on the number case; the engine only ever
subtracts two numbers (`adjustedScore - originalScore`). -/
def jsSub (a b : JVal) : JVal :=
  match a, b with
  | .num x, .num y => .num (x - y)
  | _, _ => .undefined

/-- The key field `adjustSection` is told to read for a section:
`'category'` for design styles, `'type'` for components (and
`krdsComponents`), `'name'` for basic and service patterns. -/
inductive KeyField where
  | category
  | type
  | name
  deriving DecidableEq

/-- A scored finding (`CategoryItem`).  Exactly the fields that
`exceptionHandler.js` reads (`category`/`type`/`name`/`englishName` for
key resolution, `score`, `compliance`) or writes (`score`, `compliance`,
`issues`, `excluded`, `exclusionReason`); any further fields (labels,
`krdsUrl`, `count`, ...) are copied verbatim and never influence a
result. -/
structure Item where
  category : JVal
  type : JVal
  name : JVal
  englishName : JVal
  score : JVal
  compliance : JVal
  issues : JVal
  excluded : JVal
  exclusionReason : JVal
  deriving DecidableEq

/-- `item[keyField]` for the three key fields used by the call sites. -/
def Item.get (i : Item) : KeyField → JVal
  | .category => i.category
  | .type => i.type
  | .name => i.name

/-- An exception request as read by `exceptionHandler.js`.  The source
field `section` is spelled `section'` because `section` is reserved in
Lean. -/
structure ExceptionReq where
  item_key : JVal
  item_name : JVal
  section' : JVal
  category : JVal
  reason : JVal
  deriving DecidableEq

/-- One entry of `krdsCompliance.designTokensDetail`: the fields
`adjustDesignTokensDetail` writes; others are copied verbatim. -/
structure Detail where
  score : JVal
  compliance : JVal
  issues : JVal
  passed : JVal
  excluded : JVal
  deriving DecidableEq

/-- The `krdsCompliance` sub-object.  `applyExceptions` reads and writes
`designTokensDetail` and `krdsComponents` and (relevant to the claims)
never touches `score`; the `basicPatterns`/`servicePatterns` mirrors are
untouched pass-through data and are omitted.  `designTokensDetail` is a
keyed mapping, modelled as an association list in key-insertion order. -/
structure KrdsCompliance where
  score : JVal
  designTokensDetail : Option (List (String × Detail))
  krdsComponents : Option (List Item)
  deriving DecidableEq

/-- The audit record attached by `applyExceptions`. -/
structure ExceptionInfo where
  applied : Bool
  checklistId : JVal
  totalExceptions : ℕ
  originalScore : JVal
  adjustedScore : JVal
  scoreDifference : JVal
  sections : List JVal
  deriving DecidableEq

/-- An analysis result as consumed by `applyExceptions`.  A section field
is `none` when absent/null (a JS array, even empty, is truthy, hence
`some []` and `none` behave differently at the `adjusted.designStyles`
guards).  `url`, `viewport`, `timestamp`, `executionTime`, `axeResults`
and `kwcagReport` are pass-through data the engine never inspects and
are omitted. -/
structure AnalysisResult where
  overallScore : JVal
  designStyles : Option (List Item)
  components : Option (List Item)
  basicPatterns : Option (List Item)
  servicePatterns : Option (List Item)
  krdsCompliance : Option KrdsCompliance
  exceptionInfo : Option ExceptionInfo
  deriving DecidableEq

/-- One axe-core violation or pass record, as read by
`generateKWCAGReport`: a rule identifier, an optional `impact` severity
and the tag list. -/
structure AxeRecord where
  id : String
  impact : JVal
  tags : List String
  deriving DecidableEq

/-- The axe-core result object (`generateKWCAGReport` reads only
`violations` and `passes`). -/
structure AxeResults where
  violations : List AxeRecord
  passes : List AxeRecord
  deriving DecidableEq

/-- The four WCAG principle buckets. -/
inductive Principle where
  | perceivable
  | operable
  | understandable
  | robust
  deriving DecidableEq

/-- The `kwcagReport` fields the claims are about.  The `levelA`/
`levelAA` sub-summaries are derived pass-through data not covered by any
claim and are omitted. -/
structure KwcagReport where
  overallCompliance : ℤ
  wcagLevel : String
  violations : ℕ
  passes : ℕ
  byCategory : Principle → ℤ

namespace ExceptionHandler

/-- Resolved section name of one exception:
`exc.section || exc.category || '기타'` (`groupExceptionsBySection`).
JS would additionally stringify a non-string truthy value when using it
as an object key; the claims only involve string section names, so that
coercion is not modelled. -/
def resolvedSection (e : ExceptionReq) : JVal :=
  jsOr (jsOr e.section' e.category) (.str "기타")

/-- The group of `groupExceptionsBySection`'s result under key `k`
(empty when the key is absent, which is exactly the falsy case of the
JS lookup `exceptionsBySection[k]`). -/
def groupExceptionsBySection (exceptions : List ExceptionReq) (k : JVal) :
    List ExceptionReq :=
  exceptions.filter (fun e => resolvedSection e == k)

/-- `Object.keys` of `groupExceptionsBySection`'s result: the distinct
resolved section names in first-occurrence order. -/
def groupKeys (exceptions : List ExceptionReq) : List JVal :=
  exceptions.foldl
    (fun acc e =>
      let k := resolvedSection e
      if k ∈ acc then acc else acc ++ [k])
    []

/-- Resolved matching key of one exception:
`e.item_key || e.item_name || ''` (`adjustSection`). -/
def resolvedMatchKey (e : ExceptionReq) : JVal :=
  jsOr (jsOr e.item_key e.item_name) (.str "")

/-- Resolved key of a section item:
`item[keyField] || item.name || item.englishName || ''`. -/
def resolvedItemKey (item : Item) (kf : KeyField) : JVal :=
  jsOr (jsOr (jsOr (item.get kf) item.name) item.englishName) (.str "")

/-- The per-item body of `adjustSection`'s `items.map`: items whose
resolved key is among the (truthy) resolved exception keys are rewritten
to a compliant state, all others are returned unchanged.  The
`includes`/`===` comparisons are modelled by structural equality on
`JVal`; this matches JS SameValueZero on the primitive values the keys
take (arrays, which JS would compare by reference, never match any
claim's inputs). -/
def adjustItem (exceptions : List ExceptionReq) (excludedKeys : List JVal)
    (kf : KeyField) (item : Item) : Item :=
  let itemKey := resolvedItemKey item kf
  if itemKey ∈ excludedKeys then
    { item with
      score := .num 100
      compliance := if item.compliance.isStr then .str "준수" else .num 100
      issues := .arr []
      excluded := .bool true
      exclusionReason :=
        match exceptions.find? (fun e => jsOr e.item_key e.item_name == itemKey) with
        | some e => jsOr e.reason (.str "예외 항목")
        | none => .str "예외 항목" }
  else item

/-- `adjustSection(items, exceptions, keyField)`. -/
def adjustSection (items : List Item) (exceptions : List ExceptionReq)
    (kf : KeyField) : List Item :=
  if items.isEmpty then items
  else
    let excludedKeys := (exceptions.map resolvedMatchKey).filter JVal.truthy
    items.map (adjustItem exceptions excludedKeys kf)

/-- The rewrite `adjustDesignTokensDetail` applies to a matched entry. -/
def adjustDetail (d : Detail) : Detail :=
  { d with
    score := .num 100
    compliance := .arr []
    issues := .arr []
    passed := .arr ["예외 처리로 완벽 준수"]
    excluded := .bool true }

/-- `adjustDesignTokensDetail(detail, exceptions)`. -/
def adjustDesignTokensDetail (detail : List (String × Detail))
    (exceptions : List ExceptionReq) : List (String × Detail) :=
  let excludedKeys := (exceptions.map resolvedMatchKey).filter JVal.truthy
  detail.map (fun kv =>
    if (JVal.str kv.1) ∈ excludedKeys then (kv.1, adjustDetail kv.2) else kv)

/-- The value summed for one item by `calculateCategoryScore`:
`item.score || item.compliance || 0`. -/
def itemScoreVal (item : Item) : JVal :=
  jsOr (jsOr item.score item.compliance) (.num 0)

/-- The contribution of one item to `calculateCategoryScore`'s total:
the resolved value if it is a number, else 0
(`typeof score === 'number' ? score : 0`). -/
def itemContribution (item : Item) : ℚ :=
  match itemScoreVal item with
  | .num q => q
  | _ => 0

/-- `calculateCategoryScore(items)` of `exceptionHandler.js`. -/
def calculateCategoryScore (items : List Item) : ℤ :=
  if items.isEmpty then 0
  else jsRound ((items.map itemContribution).sum / items.length)

/-- One section's contribution to the `scores` array of
`calculateOverallScore`: its aggregate is pushed only when the section
is present and non-empty. -/
def optScore (sec : Option (List Item)) : List ℤ :=
  match sec with
  | some items => if 0 < items.length then [calculateCategoryScore items] else []
  | none => []

/-- The `scores` array built by `calculateOverallScore`. -/
def sectionScores (data : AnalysisResult) : List ℤ :=
  optScore data.designStyles ++ optScore data.components ++
    optScore data.basicPatterns ++ optScore data.servicePatterns

/-- `calculateOverallScore(data)` of `exceptionHandler.js`: the rounded
mean of the aggregates of the present, non-empty sections; 0 when there
is none. -/
def calculateOverallScore (data : AnalysisResult) : ℤ :=
  let scores := sectionScores data
  if scores.length = 0 then 0
  else jsRound (((scores.map (fun s : ℤ => (s : ℚ))).sum) / scores.length)

/-- One `if (group && field) field = adjustSection(field, group, kf)`
step of `applyExceptions` (a present array, even empty, passes the
truthiness guard). -/
def adjustOptional (sec : Option (List Item)) (g : List ExceptionReq)
    (kf : KeyField) : Option (List Item) :=
  match sec with
  | some items => some (if g.isEmpty then items else adjustSection items g kf)
  | none => none

/-- The section-mutation phase of `applyExceptions` on the deep copy:
the four sections and the `krdsCompliance` mirrors are adjusted;
`overallScore`, `krdsCompliance.score` and `exceptionInfo` are not
touched by this phase. -/
def adjustSections (r : AnalysisResult) (exceptions : List ExceptionReq) :
    AnalysisResult :=
  let gDS := groupExceptionsBySection exceptions (.str "디자인 스타일")
  let gC := groupExceptionsBySection exceptions (.str "컴포넌트")
  let gBP := groupExceptionsBySection exceptions (.str "기본 패턴")
  let gSP := groupExceptionsBySection exceptions (.str "서비스 패턴")
  { r with
    designStyles := adjustOptional r.designStyles gDS .category
    components := adjustOptional r.components gC .type
    basicPatterns := adjustOptional r.basicPatterns gBP .name
    servicePatterns := adjustOptional r.servicePatterns gSP .name
    krdsCompliance :=
      match r.krdsCompliance with
      | none => none
      | some kc =>
        some { kc with
          designTokensDetail :=
            match kc.designTokensDetail with
            | some d => some (if gDS.isEmpty then d else adjustDesignTokensDetail d gDS)
            | none => none
          krdsComponents :=
            match kc.krdsComponents with
            | some items => some (if gC.isEmpty then items else adjustSection items gC .type)
            | none => none } }

/-- `applyExceptions(analysisResults, exceptions, checklistId)`. -/
def applyExceptions (analysisResults : AnalysisResult)
    (exceptions : List ExceptionReq) (checklistId : JVal) : AnalysisResult :=
  if exceptions.isEmpty then analysisResults
  else
    let adjusted := adjustSections analysisResults exceptions
    let newScore := calculateOverallScore adjusted
    { adjusted with
      overallScore := .num newScore
      exceptionInfo := some
        { applied := true
          checklistId := checklistId
          totalExceptions := exceptions.length
          originalScore := analysisResults.overallScore
          adjustedScore := .num newScore
          scoreDifference := jsSub (.num newScore) analysisResults.overallScore
          sections := groupKeys exceptions } }

end ExceptionHandler

namespace Analyzer

/-- The contribution of one item to `analyzer.js`'s
`calculateCategoryScore` total: `item.score || 0`.  (A truthy non-number
`score` would make the JS `sum + score` coerce the running total to a
string and the final result to `NaN`; that path is modelled as a `0`
contribution and is outside every theorem's hypotheses, which require
numeric scores.) -/
def itemContribution (item : Item) : ℚ :=
  match jsOr item.score (.num 0) with
  | .num q => q
  | _ => 0

/-- `calculateCategoryScore(items)` of `analyzer.js`. -/
def calculateCategoryScore (items : List Item) : ℤ :=
  if items.isEmpty then 0
  else jsRound ((items.map itemContribution).sum / items.length)

/-- `calculateOverallScore(data)` of `analyzer.js`: always averages the
four per-section aggregates (the call site passes the four freshly
produced section arrays). -/
def calculateOverallScore (designStyles components basicPatterns
    servicePatterns : List Item) : ℤ :=
  let scores : List ℤ :=
    [calculateCategoryScore designStyles, calculateCategoryScore components,
      calculateCategoryScore basicPatterns, calculateCategoryScore servicePatterns]
  jsRound (((scores.map (fun s : ℤ => (s : ℚ))).sum) / scores.length)

/-- `cs` occurs as a contiguous run inside `s`. -/
def charsContain (s cs : List Char) : Bool :=
  match s with
  | [] => cs.isEmpty
  | _ :: t => cs.isPrefixOf s || charsContain t cs

/-- An unanchored literal-alternation JS regex test: some keyword of
`kws` occurs as a substring of `id`. -/
def testAny (id : String) (kws : List String) : Bool :=
  kws.any (fun k => charsContain id.toList k.toList)

/-- `categorizeRule(id)` of `generateKWCAGReport`: the four keyword
patterns tried in fixed priority order, defaulting to perceivable. -/
def categorizeRule (id : String) : Principle :=
  if testAny id ["color", "contrast", "image", "text", "alt", "audio", "video", "caption"] then
    .perceivable
  else if testAny id ["keyboard", "focus", "navigation", "timing", "seizure", "pointer"] then
    .operable
  else if testAny id ["label", "lang", "heading", "error", "input", "readable"] then
    .understandable
  else if testAny id ["valid", "parse", "name", "role", "value", "aria"] then
    .robust
  else .perceivable

/-- The violation count of one principle bucket (the `forEach` increments
of `generateKWCAGReport` count exactly the records `categorizeRule`
assigns to the bucket). -/
def bucketViolations (axe : AxeResults) (p : Principle) : ℕ :=
  (axe.violations.filter (fun v => categorizeRule v.id == p)).length

/-- The pass count of one principle bucket. -/
def bucketPasses (axe : AxeResults) (p : Principle) : ℕ :=
  (axe.passes.filter (fun v => categorizeRule v.id == p)).length

/-- `generateKWCAGReport(axeResults)` of `analyzer.js` (the fields the
claims are about). -/
def generateKWCAGReport (axe : AxeResults) : KwcagReport :=
  let violations := axe.violations
  let passes := axe.passes
  let totalTests := violations.length + passes.length
  let overallCompliance : ℤ :=
    if 0 < totalTests then jsRound ((passes.length : ℚ) / totalTests * 100) else 0
  let criticalViolations :=
    violations.filter (fun v => v.impact == .str "critical" || v.impact == .str "serious")
  let wcagLevel :=
    if violations.length = 0 then "AA"
    else if criticalViolations.length = 0 then "A"
    else "None"
  { overallCompliance := overallCompliance
    wcagLevel := wcagLevel
    violations := violations.length
    passes := passes.length
    byCategory := fun p =>
      let v := bucketViolations axe p
      let pa := bucketPasses axe p
      if 0 < v + pa then jsRound ((pa : ℚ) / (v + pa) * 100) else 100 }

end Analyzer

/-- Modelled from the spec: the Overall Score Calculator contract of
§4.2/§8 — the rounded arithmetic mean of exactly four per-section
aggregates, absent or empty sections contributing 0.  Stated for
comparison with the code's two overall-score functions. -/
def specOverall4 (a b c d : ℤ) : ℤ := jsRound (((a : ℚ) + b + c + d) / 4)

/-- Modelled from the spec: the Category Aggregator contract of §4.1 as
the claim reads it — an item contributes its `score`, falling back to
`compliance` only when `score` is absent or non-numeric, else 0.  Stated
for comparison with the code's aggregation. -/
def specContribution (i : Item) : ℚ :=
  match i.score with
  | .num q => q
  | _ =>
    match i.compliance with
    | .num q => q
    | _ => 0

/-- Modelled from the spec: the rounded mean of the spec-side
contributions, 0 for an empty sequence. -/
def specCategoryScore (items : List Item) : ℤ :=
  if items.isEmpty then 0
  else jsRound ((items.map specContribution).sum / items.length)

/-- The claim's matching condition for the per-section override: the
item's resolved key equals some exception's resolved matching key, an
empty resolved matching key never matching. -/
def specMatches (exc : List ExceptionReq) (k : JVal) : Prop :=
  ∃ e ∈ exc, (ExceptionHandler.resolvedMatchKey e).truthy = true ∧
    ExceptionHandler.resolvedMatchKey e = k

instance (exc : List ExceptionReq) (k : JVal) : Decidable (specMatches exc k) :=
  List.decidableBEx _ exc

/-- The claim's rewrite of a matched item: score 100, compliance `"준수"`
for a string-typed original else the number 100, empty issues, excluded,
and the first matching exception's reason (default placeholder when it
gave none). -/
def specRewrite (exc : List ExceptionReq) (k : JVal) (item : Item) : Item :=
  { item with
    score := .num 100
    compliance := if item.compliance.isStr then .str "준수" else .num 100
    issues := .arr []
    excluded := .bool true
    exclusionReason :=
      match exc.find? (fun e => ExceptionHandler.resolvedMatchKey e == k) with
      | some e => jsOr e.reason (.str "예외 항목")
      | none => .str "예외 항목" }

/-- The claim's per-item description of the section override. -/
def specAdjustItem (exc : List ExceptionReq) (kf : KeyField) (item : Item) : Item :=
  let k := ExceptionHandler.resolvedItemKey item kf
  if specMatches exc k then specRewrite exc k item else item

/-- A design-style-shaped item: numeric score with a numeric
`compliance` mirror, keyed by `category` (the shape `analyzeDesignStyles`
produces). -/
def mkStyleItem (cat : String) (s : ℚ) : Item :=
  { category := .str cat
    type := .undefined
    name := .str cat
    englishName := .undefined
    score := .num s
    compliance := .num s
    issues := .arr []
    excluded := .undefined
    exclusionReason := .undefined }

/-- The two-item design-style section of the spec's §8 scenario. -/
def sampleDS : List Item := [mkStyleItem "colors" 40, mkStyleItem "typography" 70]

/-- The §8-scenario exception list: one exception excusing `colors`. -/
def sampleExc : List ExceptionReq :=
  [{ item_key := .str "colors"
     item_name := .str "색상"
     section' := .str "디자인 스타일"
     category := .undefined
     reason := .str "기관 특성상 예외" }]

/-- A result carrying the §8-scenario section, a `krdsCompliance.score`
mirror of its overall score, and nothing else. -/
def sampleResult : AnalysisResult :=
  { overallScore := .num 55
    designStyles := some sampleDS
    components := none
    basicPatterns := none
    servicePatterns := none
    krdsCompliance := some { score := .num 55, designTokensDetail := none, krdsComponents := none }
    exceptionInfo := none }

/-- A well-formed item per the spec's data model (§3): a numeric `score`
in [0,100], and a `compliance` that, when numeric, is also in [0,100]. -/
def itemConsistent (i : Item) : Bool :=
  (match i.score with
   | .num s => decide (0 ≤ s) && decide (s ≤ 100)
   | _ => false) &&
  (match i.compliance with
   | .num q => decide (0 ≤ q) && decide (q ≤ 100)
   | _ => true)

/-- The §6 engine input contract ("internally consistent"): the four
sections are present, every item is well-formed per §3, and
`overallScore` is the assembler's freshly computed overall score of the
four sections. -/
def Consistent (r : AnalysisResult) : Prop :=
  ∃ ds cs bp sp : List Item,
    r.designStyles = some ds ∧ r.components = some cs ∧
    r.basicPatterns = some bp ∧ r.servicePatterns = some sp ∧
    (∀ i ∈ ds ++ cs ++ bp ++ sp, itemConsistent i = true) ∧
    r.overallScore = .num (Analyzer.calculateOverallScore ds cs bp sp)

/-- A result whose only present section holds one 80-scored design
style: the recomputation's empty-section policy shows on it. -/
def c1result : AnalysisResult :=
  { overallScore := .num 20
    designStyles := some [mkStyleItem "colors" 80]
    components := none
    basicPatterns := none
    servicePatterns := none
    krdsCompliance := none
    exceptionInfo := none }

/-- All four sections present but empty. -/
def c1empty : AnalysisResult :=
  { overallScore := .num 0
    designStyles := some []
    components := some []
    basicPatterns := some []
    servicePatterns := some []
    krdsCompliance := none
    exceptionInfo := none }

/-- All four sections present and non-empty. -/
def c1full : AnalysisResult :=
  { overallScore := .num 75
    designStyles := some [mkStyleItem "colors" 80]
    components := some [mkStyleItem "button" 60]
    basicPatterns := some [mkStyleItem "layout" 70]
    servicePatterns := some [mkStyleItem "login" 90]
    krdsCompliance := none
    exceptionInfo := none }

/-- An item with a present numeric score 0 and a numeric compliance 50:
the JS `||` fallback fires on the falsy score. -/
def c3item : Item :=
  { category := .str "colors"
    type := .undefined
    name := .str "colors"
    englishName := .undefined
    score := .num 0
    compliance := .num 50
    issues := .arr []
    excluded := .undefined
    exclusionReason := .undefined }

/-- An exception carrying neither `section` nor `category`: it is
grouped under the `"기타"` bucket. -/
def c4exc : List ExceptionReq :=
  [{ item_key := .str "nonexistent"
     item_name := .undefined
     section' := .undefined
     category := .undefined
     reason := .undefined }]

/-- An internally consistent full result: four present sections whose
aggregates are 55, 55, 55, 55, so the assembler's overall score is 55,
mirrored in `krdsCompliance.score`. -/
def c2result : AnalysisResult :=
  { overallScore := .num 55
    designStyles := some sampleDS
    components := some [mkStyleItem "button" 55]
    basicPatterns := some [mkStyleItem "layout" 55]
    servicePatterns := some [mkStyleItem "login" 55]
    krdsCompliance := some { score := .num 55, designTokensDetail := none, krdsComponents := none }
    exceptionInfo := none }

/-- The §8 accessibility scenario: 3 violations, none of impact
`critical`/`serious`, and 7 passes. -/
def c9axe : AxeResults :=
  { violations :=
      [{ id := "image-alt", impact := .str "moderate", tags := [] },
        { id := "color-contrast", impact := .str "minor", tags := [] },
        { id := "heading-order", impact := .undefined, tags := [] }]
    passes :=
      [{ id := "p1", impact := .undefined, tags := [] },
        { id := "p2", impact := .undefined, tags := [] },
        { id := "p3", impact := .undefined, tags := [] },
        { id := "p4", impact := .undefined, tags := [] },
        { id := "p5", impact := .undefined, tags := [] },
        { id := "p6", impact := .undefined, tags := [] },
        { id := "p7", impact := .undefined, tags := [] }] }

/-- A report with one critical-impact violation. -/
def c9critAxe : AxeResults :=
  { violations := [{ id := "keyboard-trap", impact := .str "critical", tags := [] }]
    passes := [] }

/-- `jsRound` is the mathematical `⌊x + 1/2⌋`. -/
theorem jsRound_eq_floor (x : ℚ) : jsRound x = ⌊x + 1/2⌋ :=
  (Rat.floor_def' (x + 1/2)).trans (Rat.floor_def).symm

theorem jsRound_mono {x y : ℚ} (h : x ≤ y) : jsRound x ≤ jsRound y := by
  rw [jsRound_eq_floor, jsRound_eq_floor]
  exact Int.floor_le_floor (by linarith)

theorem jsRound_nonneg {x : ℚ} (h : 0 ≤ x) : 0 ≤ jsRound x := by
  rw [jsRound_eq_floor]
  exact Int.le_floor.mpr (by push_cast; linarith)

theorem jsRound_le_100 {x : ℚ} (h : x ≤ 100) : jsRound x ≤ 100 := by
  rw [jsRound_eq_floor]
  have h101 : (⌊x + 1/2⌋ : ℤ) < 101 := Int.floor_lt.mpr (by push_cast; linarith)
  omega

theorem listMean_nonneg {l : List ℚ} (h : ∀ x ∈ l, 0 ≤ x) :
    0 ≤ l.sum / l.length :=
  div_nonneg (List.sum_nonneg h) (by positivity)

theorem listMean_le_100 {l : List ℚ} (h : ∀ x ∈ l, x ≤ 100) (hne : l ≠ []) :
    l.sum / l.length ≤ 100 := by
  have hpos : (0 : ℚ) < l.length := by
    exact_mod_cast List.length_pos.mpr hne
  rw [div_le_iff hpos]
  have hs := List.sum_le_card_nsmul l 100 h
  rw [nsmul_eq_mul] at hs
  linarith

theorem listMean_mono {l m : List ℚ} (hlen : l.length = m.length)
    (hsum : l.sum ≤ m.sum) : l.sum / l.length ≤ m.sum / m.length := by
  rcases Nat.eq_zero_or_pos l.length with h0 | hpos
  · have hm0 : m.length = 0 := by omega
    rw [List.eq_nil_of_length_eq_zero h0, List.eq_nil_of_length_eq_zero hm0]
  · have hpos' : (0 : ℚ) < l.length := by exact_mod_cast hpos
    rw [hlen] at hpos' ⊢
    exact (div_le_div_right hpos').mpr hsum

/-- Dividing a nonnegative sum by a smaller positive count does not
decrease the mean. -/
theorem div_le_div_of_le_count {s : ℚ} {k n : ℕ} (hs : 0 ≤ s) (hk : 0 < k)
    (hkn : k ≤ n) : s / n ≤ s / k := by
  have hk' : (0 : ℚ) < k := by exact_mod_cast hk
  have hn' : (0 : ℚ) < n := lt_of_lt_of_le hk' (by exact_mod_cast hkn)
  rw [div_le_div_iff hn' hk']
  have : (k : ℚ) ≤ n := by exact_mod_cast hkn
  nlinarith

theorem itemContribution_adjustItem (exc : List ExceptionReq) (keys : List JVal)
    (kf : KeyField) (i : Item) :
    ExceptionHandler.itemContribution (ExceptionHandler.adjustItem exc keys kf i)
        = ExceptionHandler.itemContribution i ∨
      ExceptionHandler.itemContribution (ExceptionHandler.adjustItem exc keys kf i) = 100 := by
  by_cases hmem : ExceptionHandler.resolvedItemKey i kf ∈ keys
  · right
    simp [ExceptionHandler.adjustItem, hmem, ExceptionHandler.itemContribution,
      ExceptionHandler.itemScoreVal, jsOr, JVal.truthy]
  · left
    simp [ExceptionHandler.adjustItem, hmem]

theorem catEH_nonneg (items : List Item)
    (h : ∀ i ∈ items, 0 ≤ ExceptionHandler.itemContribution i) :
    0 ≤ ExceptionHandler.calculateCategoryScore items := by
  unfold ExceptionHandler.calculateCategoryScore
  split
  · exact le_refl 0
  · apply jsRound_nonneg
    have hm : ∀ x ∈ items.map ExceptionHandler.itemContribution, 0 ≤ x := by
      intro x hx
      obtain ⟨i, hi, rfl⟩ := List.mem_map.mp hx
      exact h i hi
    simpa using listMean_nonneg hm

theorem catEH_le_100 (items : List Item)
    (h : ∀ i ∈ items, ExceptionHandler.itemContribution i ≤ 100) :
    ExceptionHandler.calculateCategoryScore items ≤ 100 := by
  unfold ExceptionHandler.calculateCategoryScore
  split
  · norm_num
  next hne =>
    apply jsRound_le_100
    have hne' : items ≠ [] := by simpa [List.isEmpty_iff] using hne
    have hm : ∀ x ∈ items.map ExceptionHandler.itemContribution, x ≤ 100 := by
      intro x hx
      obtain ⟨i, hi, rfl⟩ := List.mem_map.mp hx
      exact h i hi
    have := listMean_le_100 hm (by simpa using hne')
    simpa using this

theorem catA_nonneg (items : List Item)
    (h : ∀ i ∈ items, 0 ≤ Analyzer.itemContribution i) :
    0 ≤ Analyzer.calculateCategoryScore items := by
  unfold Analyzer.calculateCategoryScore
  split
  · exact le_refl 0
  · apply jsRound_nonneg
    have hm : ∀ x ∈ items.map Analyzer.itemContribution, 0 ≤ x := by
      intro x hx
      obtain ⟨i, hi, rfl⟩ := List.mem_map.mp hx
      exact h i hi
    simpa using listMean_nonneg hm

/-- On one and the same item list, the analyzer's aggregate is at most
the exception handler's whenever the per-item contributions compare. -/
theorem catA_le_catEH (items : List Item)
    (h : ∀ i ∈ items, Analyzer.itemContribution i ≤ ExceptionHandler.itemContribution i) :
    Analyzer.calculateCategoryScore items ≤ ExceptionHandler.calculateCategoryScore items := by
  unfold Analyzer.calculateCategoryScore ExceptionHandler.calculateCategoryScore
  split
  · exact le_refl 0
  · apply jsRound_mono
    have hsum := List.sum_le_sum h
    have := listMean_mono (l := items.map Analyzer.itemContribution)
      (m := items.map ExceptionHandler.itemContribution) (by simp) hsum
    simpa using this

/-- Mapping `adjustItem` over a section never decreases its aggregate,
provided every contribution is at most 100. -/
theorem catEH_le_map_adjustItem (items : List Item) (exc : List ExceptionReq)
    (keys : List JVal) (kf : KeyField)
    (h : ∀ i ∈ items, ExceptionHandler.itemContribution i ≤ 100) :
    ExceptionHandler.calculateCategoryScore items ≤
      ExceptionHandler.calculateCategoryScore
        (items.map (ExceptionHandler.adjustItem exc keys kf)) := by
  unfold ExceptionHandler.calculateCategoryScore
  rcases heq : items with _ | ⟨a, t⟩
  · simp
  rw [← heq]
  have hne : items.isEmpty = false := by rw [heq]; rfl
  rw [hne]
  have hne2 : (items.map (ExceptionHandler.adjustItem exc keys kf)).isEmpty = false := by
    rw [heq]; rfl
  rw [hne2]
  simp only [Bool.false_eq_true, if_false]
  apply jsRound_mono
  have hpt : ∀ i ∈ items, ExceptionHandler.itemContribution i ≤
      ExceptionHandler.itemContribution (ExceptionHandler.adjustItem exc keys kf i) := by
    intro i hi
    rcases itemContribution_adjustItem exc keys kf i with he | he
    · rw [he]
    · rw [he]; exact h i hi
  have hsum := List.sum_le_sum hpt
  have := listMean_mono (l := items.map ExceptionHandler.itemContribution)
    (m := items.map (fun i =>
      ExceptionHandler.itemContribution (ExceptionHandler.adjustItem exc keys kf i)))
    (by simp) hsum
  simpa [List.map_map, Function.comp] using this

/-- The contribution facts a consistent item guarantees, for both
aggregation functions. -/
theorem itemConsistent_facts {i : Item} (h : itemConsistent i = true) :
    0 ≤ Analyzer.itemContribution i ∧
      Analyzer.itemContribution i ≤ ExceptionHandler.itemContribution i ∧
      0 ≤ ExceptionHandler.itemContribution i ∧
      ExceptionHandler.itemContribution i ≤ 100 := by
  unfold itemConsistent at h
  rcases hs : i.score with s | s | l | b | _ <;> rw [hs] at h <;> simp at h
  obtain ⟨⟨hs0, hs100⟩, hcomp⟩ := h
  by_cases hz : s = 0
  · subst hz
    have hA : Analyzer.itemContribution i = 0 := by
      simp [Analyzer.itemContribution, jsOr, JVal.truthy, hs]
    rw [hA]
    rcases hc : i.compliance with q | t | l | b | _ <;> rw [hc] at hcomp <;>
      simp at hcomp
    · by_cases hq : q = 0
      · subst hq
        have hE : ExceptionHandler.itemContribution i = 0 := by
          simp [ExceptionHandler.itemContribution, ExceptionHandler.itemScoreVal,
            jsOr, JVal.truthy, hs, hc]
        rw [hE]
        norm_num
      · have hE : ExceptionHandler.itemContribution i = q := by
          simp [ExceptionHandler.itemContribution, ExceptionHandler.itemScoreVal,
            jsOr, JVal.truthy, hs, hc, hq]
        rw [hE]
        exact ⟨le_refl 0, hcomp.1, hcomp.1, hcomp.2⟩
    · by_cases ht : t = ""
      · subst ht
        have hE : ExceptionHandler.itemContribution i = 0 := by
          simp [ExceptionHandler.itemContribution, ExceptionHandler.itemScoreVal,
            jsOr, JVal.truthy, hs, hc]
        rw [hE]; norm_num
      · have hE : ExceptionHandler.itemContribution i = 0 := by
          simp [ExceptionHandler.itemContribution, ExceptionHandler.itemScoreVal,
            jsOr, JVal.truthy, hs, hc, ht]
        rw [hE]; norm_num
    · have hE : ExceptionHandler.itemContribution i = 0 := by
        simp [ExceptionHandler.itemContribution, ExceptionHandler.itemScoreVal,
          jsOr, JVal.truthy, hs, hc]
      rw [hE]; norm_num
    · rcases b with _ | _
      · have hE : ExceptionHandler.itemContribution i = 0 := by
          simp [ExceptionHandler.itemContribution, ExceptionHandler.itemScoreVal,
            jsOr, JVal.truthy, hs, hc]
        rw [hE]; norm_num
      · have hE : ExceptionHandler.itemContribution i = 0 := by
          simp [ExceptionHandler.itemContribution, ExceptionHandler.itemScoreVal,
            jsOr, JVal.truthy, hs, hc]
        rw [hE]; norm_num
    · have hE : ExceptionHandler.itemContribution i = 0 := by
        simp [ExceptionHandler.itemContribution, ExceptionHandler.itemScoreVal,
          jsOr, JVal.truthy, hs, hc]
      rw [hE]; norm_num
  · have hA : Analyzer.itemContribution i = s := by
      simp [Analyzer.itemContribution, jsOr, JVal.truthy, hs, hz]
    have hE : ExceptionHandler.itemContribution i = s := by
      simp [ExceptionHandler.itemContribution, ExceptionHandler.itemScoreVal,
        jsOr, JVal.truthy, hs, hz]
    rw [hA, hE]
    exact ⟨hs0, le_refl s, hs0, hs100⟩

theorem adjustSection_eq_map (items : List Item) (exc : List ExceptionReq)
    (kf : KeyField) :
    ExceptionHandler.adjustSection items exc kf =
      items.map (ExceptionHandler.adjustItem exc
        ((exc.map ExceptionHandler.resolvedMatchKey).filter JVal.truthy) kf) := by
  unfold ExceptionHandler.adjustSection
  split
  next h =>
    have : items = [] := by simpa [List.isEmpty_iff] using h
    simp [this]
  · rfl

theorem adjustSection_length (items : List Item) (exc : List ExceptionReq)
    (kf : KeyField) :
    (ExceptionHandler.adjustSection items exc kf).length = items.length := by
  rw [adjustSection_eq_map]
  simp

/-- Adjusting a present section never decreases its aggregate (under the
[0,100] contribution bound). -/
theorem catEH_le_adjustSection (items : List Item) (exc : List ExceptionReq)
    (kf : KeyField)
    (h : ∀ i ∈ items, ExceptionHandler.itemContribution i ≤ 100) :
    ExceptionHandler.calculateCategoryScore items ≤
      ExceptionHandler.calculateCategoryScore
        (ExceptionHandler.adjustSection items exc kf) := by
  rw [adjustSection_eq_map]
  exact catEH_le_map_adjustItem items exc _ kf h

theorem optScore_length_le_one (sec : Option (List Item)) :
    (ExceptionHandler.optScore sec).length ≤ 1 := by
  rcases sec with _ | items
  · exact Nat.zero_le 1
  · by_cases hp : 0 < items.length <;> simp [ExceptionHandler.optScore, hp]

theorem optScore_adjustOptional_length (sec : Option (List Item))
    (g : List ExceptionReq) (kf : KeyField) :
    (ExceptionHandler.optScore (ExceptionHandler.adjustOptional sec g kf)).length
      = (ExceptionHandler.optScore sec).length := by
  rcases sec with _ | items
  · rfl
  · by_cases hg : g.isEmpty
    · simp [ExceptionHandler.adjustOptional, hg]
    · by_cases hp : 0 < items.length <;>
        simp [ExceptionHandler.adjustOptional, ExceptionHandler.optScore, hg, hp,
          adjustSection_length]

theorem optScore_sum_nonneg (sec : Option (List Item))
    (h : ∀ items, sec = some items → ∀ i ∈ items, 0 ≤ ExceptionHandler.itemContribution i) :
    0 ≤ ((ExceptionHandler.optScore sec).map (fun s : ℤ => (s : ℚ))).sum := by
  rcases sec with _ | items
  · simp [ExceptionHandler.optScore]
  · by_cases hp : 0 < items.length
    · have hn := catEH_nonneg items (h items rfl)
      simp only [ExceptionHandler.optScore, if_pos hp, List.map_cons, List.map_nil,
        List.sum_cons, List.sum_nil, add_zero]
      exact_mod_cast hn
    · simp [ExceptionHandler.optScore, hp]

/-- Adjusting a present section never decreases its `optScore` block sum. -/
theorem optScore_sum_le_adjustOptional (sec : Option (List Item))
    (g : List ExceptionReq) (kf : KeyField)
    (h : ∀ items, sec = some items → ∀ i ∈ items, ExceptionHandler.itemContribution i ≤ 100) :
    ((ExceptionHandler.optScore sec).map (fun s : ℤ => (s : ℚ))).sum ≤
      ((ExceptionHandler.optScore (ExceptionHandler.adjustOptional sec g kf)).map
        (fun s : ℤ => (s : ℚ))).sum := by
  rcases sec with _ | items
  · simp [ExceptionHandler.adjustOptional]
  · by_cases hg : g.isEmpty
    · simp [ExceptionHandler.adjustOptional, hg]
    · by_cases hp : 0 < items.length
      · have hle := catEH_le_adjustSection items g kf (h items rfl)
        have hp' : 0 < (ExceptionHandler.adjustSection items g kf).length := by
          rw [adjustSection_length]; exact hp
        simp only [ExceptionHandler.adjustOptional, ExceptionHandler.optScore, hg,
          Bool.false_eq_true, if_false, if_pos hp, if_pos hp', List.map_cons,
          List.map_nil, List.sum_cons, List.sum_nil, add_zero]
        exact_mod_cast hle
      · have hp' : ¬ 0 < (ExceptionHandler.adjustSection items g kf).length := by
          rw [adjustSection_length]; exact hp
        simp [ExceptionHandler.adjustOptional, ExceptionHandler.optScore, hg, hp, hp']

/-- A present section's `optScore` block sum dominates the analyzer's
aggregate of the same items, for consistent items (an empty section has
analyzer aggregate 0 and an empty block). -/
theorem catA_le_optScore_sum (l : List Item)
    (hc : ∀ i ∈ l, itemConsistent i = true) :
    ((Analyzer.calculateCategoryScore l : ℚ)) ≤
      ((ExceptionHandler.optScore (some l)).map (fun s : ℤ => (s : ℚ))).sum := by
  by_cases hl : l = []
  · subst hl
    simp [ExceptionHandler.optScore, Analyzer.calculateCategoryScore]
  · have hlen : 0 < l.length := List.length_pos.mpr hl
    have hle := catA_le_catEH l (fun i hi => (itemConsistent_facts (hc i hi)).2.1)
    simp only [ExceptionHandler.optScore, if_pos hlen, List.map_cons, List.map_nil,
      List.sum_cons, List.sum_nil, add_zero]
    exact_mod_cast hle

theorem catA_zero_of_optScore_nil (l : List Item)
    (h : ExceptionHandler.optScore (some l) = []) :
    Analyzer.calculateCategoryScore l = 0 := by
  rcases l with _ | ⟨a, t⟩
  · rfl
  · simp [ExceptionHandler.optScore] at h

/-- `calculateOverallScore` is monotone in the block sums when the
score-list shapes agree. -/
theorem overall_mono (r r' : AnalysisResult)
    (hlen : (ExceptionHandler.sectionScores r').length
      = (ExceptionHandler.sectionScores r).length)
    (hsum : ((ExceptionHandler.sectionScores r).map (fun s : ℤ => (s : ℚ))).sum ≤
      ((ExceptionHandler.sectionScores r').map (fun s : ℤ => (s : ℚ))).sum) :
    ExceptionHandler.calculateOverallScore r ≤
      ExceptionHandler.calculateOverallScore r' := by
  simp only [ExceptionHandler.calculateOverallScore]
  by_cases h0 : (ExceptionHandler.sectionScores r).length = 0
  · rw [if_pos h0, if_pos (by omega)]
  · rw [if_neg h0, if_neg (by omega)]
    apply jsRound_mono
    have := listMean_mono
      (l := (ExceptionHandler.sectionScores r).map (fun s : ℤ => (s : ℚ)))
      (m := (ExceptionHandler.sectionScores r').map (fun s : ℤ => (s : ℚ)))
      (by simp [hlen]) hsum
    simpa only [List.length_map] using this

/-- For a consistent four-section result, the analyzer's overall score
(mean over exactly four aggregates, empty ones as 0) is at most the
exception handler's recomputation (mean over the non-empty sections
only). -/
theorem analyzer_le_EH_overall (r : AnalysisResult) (ds cs bp sp : List Item)
    (hds : r.designStyles = some ds) (hcs : r.components = some cs)
    (hbp : r.basicPatterns = some bp) (hsp : r.servicePatterns = some sp)
    (hcons : ∀ i ∈ ds ++ cs ++ bp ++ sp, itemConsistent i = true) :
    Analyzer.calculateOverallScore ds cs bp sp ≤
      ExceptionHandler.calculateOverallScore r := by
  have hds' : ∀ i ∈ ds, itemConsistent i = true := fun i hi => hcons i (by simp [hi])
  have hcs' : ∀ i ∈ cs, itemConsistent i = true := fun i hi => hcons i (by simp [hi])
  have hbp' : ∀ i ∈ bp, itemConsistent i = true := fun i hi => hcons i (by simp [hi])
  have hsp' : ∀ i ∈ sp, itemConsistent i = true := fun i hi => hcons i (by simp [hi])
  have hss : ExceptionHandler.sectionScores r =
      ExceptionHandler.optScore (some ds) ++ ExceptionHandler.optScore (some cs) ++
        ExceptionHandler.optScore (some bp) ++ ExceptionHandler.optScore (some sp) := by
    unfold ExceptionHandler.sectionScores
    rw [hds, hcs, hbp, hsp]
  have hT1 := catA_le_optScore_sum ds hds'
  have hT2 := catA_le_optScore_sum cs hcs'
  have hT3 := catA_le_optScore_sum bp hbp'
  have hT4 := catA_le_optScore_sum sp hsp'
  have hnn : ∀ (l : List Item), (∀ i ∈ l, itemConsistent i = true) →
      0 ≤ ((ExceptionHandler.optScore (some l)).map (fun s : ℤ => (s : ℚ))).sum := by
    intro l hl
    refine optScore_sum_nonneg (some l) ?_
    rintro items h i hi
    cases h
    exact (itemConsistent_facts (hl i hi)).2.2.1
  have hN1 := hnn ds hds'
  have hN2 := hnn cs hcs'
  have hN3 := hnn bp hbp'
  have hN4 := hnn sp hsp'
  have hsumT : ((ExceptionHandler.sectionScores r).map (fun s : ℤ => (s : ℚ))).sum =
      ((ExceptionHandler.optScore (some ds)).map (fun s : ℤ => (s : ℚ))).sum +
      ((ExceptionHandler.optScore (some cs)).map (fun s : ℤ => (s : ℚ))).sum +
      ((ExceptionHandler.optScore (some bp)).map (fun s : ℤ => (s : ℚ))).sum +
      ((ExceptionHandler.optScore (some sp)).map (fun s : ℤ => (s : ℚ))).sum := by
    rw [hss]
    simp only [List.map_append, List.sum_append]
  have hAof : Analyzer.calculateOverallScore ds cs bp sp =
      jsRound (((Analyzer.calculateCategoryScore ds : ℚ) +
        Analyzer.calculateCategoryScore cs + Analyzer.calculateCategoryScore bp +
        Analyzer.calculateCategoryScore sp) / 4) := by
    simp only [Analyzer.calculateOverallScore, List.map_cons, List.map_nil,
      List.sum_cons, List.sum_nil, add_zero, List.length_cons, List.length_nil]
    norm_num
    ring_nf
  have hTnn : 0 ≤ ((ExceptionHandler.sectionScores r).map (fun s : ℤ => (s : ℚ))).sum := by
    rw [hsumT]; linarith
  have hSA : ((Analyzer.calculateCategoryScore ds : ℚ) +
      Analyzer.calculateCategoryScore cs + Analyzer.calculateCategoryScore bp +
      Analyzer.calculateCategoryScore sp) ≤
      ((ExceptionHandler.sectionScores r).map (fun s : ℤ => (s : ℚ))).sum := by
    rw [hsumT]; linarith
  have hk4 : (ExceptionHandler.sectionScores r).length ≤ 4 := by
    rw [hss]
    have l1 := optScore_length_le_one (some ds)
    have l2 := optScore_length_le_one (some cs)
    have l3 := optScore_length_le_one (some bp)
    have l4 := optScore_length_le_one (some sp)
    simp only [List.length_append]
    omega
  simp only [ExceptionHandler.calculateOverallScore]
  by_cases hk0 : (ExceptionHandler.sectionScores r).length = 0
  · rw [if_pos hk0]
    have hnil : ExceptionHandler.sectionScores r = [] := List.eq_nil_of_length_eq_zero hk0
    rw [hss] at hnil
    have e1 : ExceptionHandler.optScore (some ds) = [] := by
      rcases List.append_eq_nil.mp (List.append_eq_nil.mp (List.append_eq_nil.mp hnil).1).1 with ⟨a, _⟩
      exact a
    have e2 : ExceptionHandler.optScore (some cs) = [] :=
      (List.append_eq_nil.mp (List.append_eq_nil.mp (List.append_eq_nil.mp hnil).1).1).2
    have e3 : ExceptionHandler.optScore (some bp) = [] :=
      (List.append_eq_nil.mp (List.append_eq_nil.mp hnil).1).2
    have e4 : ExceptionHandler.optScore (some sp) = [] :=
      (List.append_eq_nil.mp hnil).2
    rw [hAof, catA_zero_of_optScore_nil ds e1, catA_zero_of_optScore_nil cs e2,
      catA_zero_of_optScore_nil bp e3, catA_zero_of_optScore_nil sp e4]
    norm_num
    rw [jsRound_eq_floor]
    norm_num
  · rw [if_neg hk0]
    rw [hAof]
    have hkpos : 0 < (ExceptionHandler.sectionScores r).length := Nat.pos_of_ne_zero hk0
    calc jsRound (((Analyzer.calculateCategoryScore ds : ℚ) +
          Analyzer.calculateCategoryScore cs + Analyzer.calculateCategoryScore bp +
          Analyzer.calculateCategoryScore sp) / 4) ≤
        jsRound (((ExceptionHandler.sectionScores r).map (fun s : ℤ => (s : ℚ))).sum / 4) := by
          apply jsRound_mono
          apply div_le_div_of_nonneg_right hSA
          norm_num
      _ ≤ jsRound (((ExceptionHandler.sectionScores r).map
            (fun s : ℤ => (s : ℚ))).sum / (ExceptionHandler.sectionScores r).length) := by
          apply jsRound_mono
          exact div_le_div_of_le_count hTnn hkpos hk4

/-- The section-mutation phase never lowers the recomputed overall
score, as long as every present item contributes at most 100. -/
theorem EH_overall_le_adjustSections (r : AnalysisResult) (exc : List ExceptionReq)
    (h1 : ∀ items, r.designStyles = some items →
      ∀ i ∈ items, ExceptionHandler.itemContribution i ≤ 100)
    (h2 : ∀ items, r.components = some items →
      ∀ i ∈ items, ExceptionHandler.itemContribution i ≤ 100)
    (h3 : ∀ items, r.basicPatterns = some items →
      ∀ i ∈ items, ExceptionHandler.itemContribution i ≤ 100)
    (h4 : ∀ items, r.servicePatterns = some items →
      ∀ i ∈ items, ExceptionHandler.itemContribution i ≤ 100) :
    ExceptionHandler.calculateOverallScore r ≤
      ExceptionHandler.calculateOverallScore (ExceptionHandler.adjustSections r exc) := by
  have hsec : ExceptionHandler.sectionScores (ExceptionHandler.adjustSections r exc) =
      ExceptionHandler.optScore (ExceptionHandler.adjustOptional r.designStyles
        (ExceptionHandler.groupExceptionsBySection exc (.str "디자인 스타일")) .category) ++
      ExceptionHandler.optScore (ExceptionHandler.adjustOptional r.components
        (ExceptionHandler.groupExceptionsBySection exc (.str "컴포넌트")) .type) ++
      ExceptionHandler.optScore (ExceptionHandler.adjustOptional r.basicPatterns
        (ExceptionHandler.groupExceptionsBySection exc (.str "기본 패턴")) .name) ++
      ExceptionHandler.optScore (ExceptionHandler.adjustOptional r.servicePatterns
        (ExceptionHandler.groupExceptionsBySection exc (.str "서비스 패턴")) .name) := rfl
  apply overall_mono
  · rw [hsec]
    unfold ExceptionHandler.sectionScores
    simp only [List.length_append, optScore_adjustOptional_length]
  · rw [hsec]
    unfold ExceptionHandler.sectionScores
    simp only [List.map_append, List.sum_append]
    have s1 := optScore_sum_le_adjustOptional r.designStyles
      (ExceptionHandler.groupExceptionsBySection exc (.str "디자인 스타일")) .category h1
    have s2 := optScore_sum_le_adjustOptional r.components
      (ExceptionHandler.groupExceptionsBySection exc (.str "컴포넌트")) .type h2
    have s3 := optScore_sum_le_adjustOptional r.basicPatterns
      (ExceptionHandler.groupExceptionsBySection exc (.str "기본 패턴")) .name h3
    have s4 := optScore_sum_le_adjustOptional r.servicePatterns
      (ExceptionHandler.groupExceptionsBySection exc (.str "서비스 패턴")) .name h4
    exact add_le_add (add_le_add (add_le_add s1 s2) s3) s4

/-- C6: for every internally consistent `AnalysisResult` and every
non-empty exception list, the Exception Override Engine records
`adjustedScore >= originalScore`, where `originalScore` is the input's
`overallScore` captured before mutation and `adjustedScore` the
recomputed overall score.  (The claim's further hypothesis that at least
one item matches is not needed: the bound holds for every non-empty
exception list.) -/
theorem c6_monotonicity (r : AnalysisResult) (exc : List ExceptionReq) (cid : JVal)
    (hc : Consistent r) (hne : exc ≠ []) :
    ∃ info : ExceptionInfo,
      (ExceptionHandler.applyExceptions r exc cid).exceptionInfo = some info ∧
      ∃ o a : ℚ, info.originalScore = .num o ∧ info.adjustedScore = .num a ∧ o ≤ a := by
  obtain ⟨ds, cs, bp, sp, hds, hcs, hbp, hsp, hcons, hov⟩ := hc
  have hne' : exc.isEmpty = false := by simpa [List.isEmpty_iff] using hne
  have hb1 : ∀ items, r.designStyles = some items →
      ∀ i ∈ items, ExceptionHandler.itemContribution i ≤ 100 := by
    intro items h i hi
    rw [hds] at h
    cases h
    exact (itemConsistent_facts (hcons i (by simp [hi]))).2.2.2
  have hb2 : ∀ items, r.components = some items →
      ∀ i ∈ items, ExceptionHandler.itemContribution i ≤ 100 := by
    intro items h i hi
    rw [hcs] at h
    cases h
    exact (itemConsistent_facts (hcons i (by simp [hi]))).2.2.2
  have hb3 : ∀ items, r.basicPatterns = some items →
      ∀ i ∈ items, ExceptionHandler.itemContribution i ≤ 100 := by
    intro items h i hi
    rw [hbp] at h
    cases h
    exact (itemConsistent_facts (hcons i (by simp [hi]))).2.2.2
  have hb4 : ∀ items, r.servicePatterns = some items →
      ∀ i ∈ items, ExceptionHandler.itemContribution i ≤ 100 := by
    intro items h i hi
    rw [hsp] at h
    cases h
    exact (itemConsistent_facts (hcons i (by simp [hi]))).2.2.2
  have hle : Analyzer.calculateOverallScore ds cs bp sp ≤
      ExceptionHandler.calculateOverallScore (ExceptionHandler.adjustSections r exc) :=
    le_trans (analyzer_le_EH_overall r ds cs bp sp hds hcs hbp hsp hcons)
      (EH_overall_le_adjustSections r exc hb1 hb2 hb3 hb4)
  simp only [ExceptionHandler.applyExceptions, hne', Bool.false_eq_true, if_false]
  refine ⟨_, rfl, (Analyzer.calculateOverallScore ds cs bp sp : ℚ),
    (ExceptionHandler.calculateOverallScore (ExceptionHandler.adjustSections r exc) : ℚ),
    ?_, rfl, ?_⟩
  · exact hov
  · exact_mod_cast hle

theorem optScore_eq_nil_of_getD (sec : Option (List Item)) (h : sec.getD [] = []) :
    ExceptionHandler.optScore sec = [] := by
  rcases sec with _ | l
  · rfl
  · simp only [Option.getD_some] at h
    subst h
    rfl

/-- C1 (counterexample): on a result whose three other sections are
absent, the override engine's `calculateOverallScore` returns the sole
present section's aggregate 80, not the claimed rounded mean
`round((80+0+0+0)/4) = 20` of four aggregates with absent sections
contributing 0. -/
theorem c1_counterexample :
    ExceptionHandler.calculateCategoryScore [mkStyleItem "colors" 80] = 80 ∧
    c1result.designStyles = some [mkStyleItem "colors" 80] ∧
    c1result.components = none ∧ c1result.basicPatterns = none ∧
    c1result.servicePatterns = none ∧
    specOverall4 80 0 0 0 = 20 ∧
    ExceptionHandler.calculateOverallScore c1result = 80 ∧
    ExceptionHandler.calculateOverallScore c1result ≠ specOverall4 80 0 0 0 := by
  decide

/-- C1 (amended): the initial assembly's overall score is the rounded
mean of exactly four per-section aggregates (an empty section
contributing its aggregate 0), and an input whose sections are all
absent or empty yields overall score 0; but the recomputation performed
after exception overrides averages only the aggregates of the present
non-empty sections — it agrees with the four-aggregate mean exactly when
all four sections are present and non-empty. -/
theorem c1_amended (ds cs bp sp : List Item) (r : AnalysisResult) :
    Analyzer.calculateOverallScore ds cs bp sp
        = specOverall4 (Analyzer.calculateCategoryScore ds)
            (Analyzer.calculateCategoryScore cs)
            (Analyzer.calculateCategoryScore bp)
            (Analyzer.calculateCategoryScore sp) ∧
    (r.designStyles.getD [] = [] → r.components.getD [] = [] →
      r.basicPatterns.getD [] = [] → r.servicePatterns.getD [] = [] →
      ExceptionHandler.calculateOverallScore r = 0) ∧
    (∀ a b c d : List Item, r.designStyles = some a → r.components = some b →
      r.basicPatterns = some c → r.servicePatterns = some d →
      a ≠ [] → b ≠ [] → c ≠ [] → d ≠ [] →
      ExceptionHandler.calculateOverallScore r
        = specOverall4 (ExceptionHandler.calculateCategoryScore a)
            (ExceptionHandler.calculateCategoryScore b)
            (ExceptionHandler.calculateCategoryScore c)
            (ExceptionHandler.calculateCategoryScore d)) := by
  refine ⟨?_, ?_, ?_⟩
  · simp only [Analyzer.calculateOverallScore, specOverall4, List.map_cons,
      List.map_nil, List.sum_cons, List.sum_nil, add_zero, List.length_cons,
      List.length_nil]
    norm_num
    ring_nf
  · intro h1 h2 h3 h4
    have e : ExceptionHandler.sectionScores r = [] := by
      unfold ExceptionHandler.sectionScores
      rw [optScore_eq_nil_of_getD _ h1, optScore_eq_nil_of_getD _ h2,
        optScore_eq_nil_of_getD _ h3, optScore_eq_nil_of_getD _ h4]
      rfl
    simp [ExceptionHandler.calculateOverallScore, e]
  · intro a b c d hda hdb hdc hdd ha hb hc0 hd0
    have hsec : ExceptionHandler.sectionScores r =
        [ExceptionHandler.calculateCategoryScore a,
          ExceptionHandler.calculateCategoryScore b,
          ExceptionHandler.calculateCategoryScore c,
          ExceptionHandler.calculateCategoryScore d] := by
      unfold ExceptionHandler.sectionScores
      rw [hda, hdb, hdc, hdd]
      simp [ExceptionHandler.optScore, List.length_pos.mpr ha,
        List.length_pos.mpr hb, List.length_pos.mpr hc0, List.length_pos.mpr hd0]
    simp only [ExceptionHandler.calculateOverallScore, hsec, specOverall4,
      List.map_cons, List.map_nil, List.sum_cons, List.sum_nil, add_zero,
      List.length_cons, List.length_nil]
    norm_num
    ring_nf

theorem c1_amended_witness :
    ExceptionHandler.calculateOverallScore c1empty = 0 ∧
    ExceptionHandler.calculateOverallScore c1full = specOverall4 80 60 70 90 ∧
    specOverall4 80 60 70 90 = 75 := by
  refine ⟨?_, ?_, by decide⟩
  · exact (c1_amended [] [] [] [] c1empty).2.1 (by decide) (by decide) (by decide)
      (by decide)
  · have h := (c1_amended [] [] [] [] c1full).2.2 [mkStyleItem "colors" 80]
      [mkStyleItem "button" 60] [mkStyleItem "layout" 70] [mkStyleItem "login" 90]
      rfl rfl rfl rfl (by decide) (by decide) (by decide) (by decide)
    rw [h]
    decide

/-- C3 (counterexample): for an item with score 0 and compliance 50 the
code's aggregator returns 50 — the JS `||` falls back on any falsy
score — while the claimed contract (fall back only when score is absent
or non-numeric) yields 0. -/
theorem c3_counterexample :
    ExceptionHandler.calculateCategoryScore [c3item] = 50 ∧
    specCategoryScore [c3item] = 0 ∧
    ExceptionHandler.calculateCategoryScore [c3item] ≠ specCategoryScore [c3item] := by
  decide

/-- C3 (amended): an item's contribution is the first JS-truthy value
among `score` and `compliance` (0 when both are falsy), taken only if it
is a number, else 0 — in particular a numeric score of 0 falls back to
`compliance`, and a truthy non-numeric score contributes 0 without
consulting `compliance`.  The empty sequence yields 0; whenever every
contribution lies in [0,100], the output is the rounded mean of the
contributions and lies in [0,100] itself; and an item whose score is a
non-zero number contributes exactly that score. -/
theorem c3_amended (items : List Item)
    (h : ∀ i ∈ items, 0 ≤ ExceptionHandler.itemContribution i ∧
      ExceptionHandler.itemContribution i ≤ 100) :
    (items = [] → ExceptionHandler.calculateCategoryScore items = 0) ∧
    (items ≠ [] → ExceptionHandler.calculateCategoryScore items
        = jsRound ((items.map ExceptionHandler.itemContribution).sum / items.length) ∧
      0 ≤ ExceptionHandler.calculateCategoryScore items ∧
      ExceptionHandler.calculateCategoryScore items ≤ 100) ∧
    (∀ i ∈ items, ∀ q : ℚ, q ≠ 0 → i.score = .num q →
      ExceptionHandler.itemContribution i = q) := by
  refine ⟨?_, ?_, ?_⟩
  · intro he
    subst he
    rfl
  · intro hne
    have hisF : items.isEmpty = false := by simpa [List.isEmpty_iff] using hne
    refine ⟨?_, catEH_nonneg items (fun i hi => (h i hi).1),
      catEH_le_100 items (fun i hi => (h i hi).2)⟩
    simp [ExceptionHandler.calculateCategoryScore, hisF]
  · intro i _ q hq hs
    simp [ExceptionHandler.itemContribution, ExceptionHandler.itemScoreVal, jsOr,
      JVal.truthy, hs, hq]

theorem c3_amended_witness :
    ExceptionHandler.calculateCategoryScore sampleDS = 55 ∧
    0 ≤ ExceptionHandler.calculateCategoryScore sampleDS ∧
    ExceptionHandler.calculateCategoryScore sampleDS ≤ 100 := by
  have h := (c3_amended sampleDS (by decide)).2.1 (by decide)
  refine ⟨?_, h.2.1, h.2.2⟩
  rw [h.1]
  decide

theorem groupKeys_mem (exc : List ExceptionReq) (k : JVal) :
    k ∈ ExceptionHandler.groupKeys exc ↔
      ∃ e ∈ exc, ExceptionHandler.resolvedSection e = k := by
  suffices h : ∀ acc : List JVal,
      k ∈ exc.foldl (fun acc e =>
        let k' := ExceptionHandler.resolvedSection e
        if k' ∈ acc then acc else acc ++ [k']) acc ↔
        (k ∈ acc ∨ ∃ e ∈ exc, ExceptionHandler.resolvedSection e = k) by
    simpa [ExceptionHandler.groupKeys] using h []
  intro acc
  induction exc generalizing acc with
  | nil => simp
  | cons e t ih =>
    simp only [List.foldl_cons]
    by_cases hk : ExceptionHandler.resolvedSection e ∈ acc
    · rw [if_pos hk, ih]
      constructor
      · rintro (h | h)
        · exact Or.inl h
        · obtain ⟨e', he', hre⟩ := h
          exact Or.inr ⟨e', by simp [he'], hre⟩
      · rintro (h | h)
        · exact Or.inl h
        · obtain ⟨e', he', hre⟩ := h
          rcases List.mem_cons.mp he' with rfl | he''
          · exact Or.inl (hre ▸ hk)
          · exact Or.inr ⟨e', he'', hre⟩
    · rw [if_neg hk, ih]
      constructor
      · rintro (h | h)
        · rcases List.mem_append.mp h with h' | h'
          · exact Or.inl h'
          · refine Or.inr ⟨e, by simp, ?_⟩
            simpa using (List.mem_singleton.mp h').symm
        · obtain ⟨e', he', hre⟩ := h
          exact Or.inr ⟨e', by simp [he'], hre⟩
      · rintro (h | h)
        · exact Or.inl (List.mem_append_left _ h)
        · obtain ⟨e', he', hre⟩ := h
          rcases List.mem_cons.mp he' with rfl | he''
          · exact Or.inl (List.mem_append_right _ (by simp [hre]))
          · exact Or.inr ⟨e', he'', hre⟩

/-- C4 (amended): `ExceptionInfo.sections` consists of ALL distinct
resolved section names of the exception list — `section`, else
`category`, else the literal `"기타"` — recognized or not; membership
reflects requested sections whether or not any item matched. -/
theorem c4_amended (r : AnalysisResult) (exc : List ExceptionReq) (cid k : JVal)
    (hne : exc ≠ []) :
    ∃ info : ExceptionInfo,
      (ExceptionHandler.applyExceptions r exc cid).exceptionInfo = some info ∧
      (k ∈ info.sections ↔ ∃ e ∈ exc, ExceptionHandler.resolvedSection e = k) := by
  have hne' : exc.isEmpty = false := by simpa [List.isEmpty_iff] using hne
  simp only [ExceptionHandler.applyExceptions, hne', Bool.false_eq_true, if_false]
  exact ⟨_, rfl, groupKeys_mem exc k⟩

/-- C4 (counterexample): an exception with no section and no category is
grouped under `"기타"`, and the code records exactly that bucket in
`ExceptionInfo.sections` — which the claim says never appears there. -/
theorem c4_counterexample :
    ((ExceptionHandler.applyExceptions sampleResult c4exc .undefined).exceptionInfo.map
      ExceptionInfo.sections) = some [.str "기타"] := by
  decide

theorem c4_amended_witness :
    ∃ info : ExceptionInfo,
      (ExceptionHandler.applyExceptions sampleResult sampleExc (.str "cl")).exceptionInfo
        = some info ∧
      ((.str "디자인 스타일") ∈ info.sections ↔
        ∃ e ∈ sampleExc, ExceptionHandler.resolvedSection e = .str "디자인 스타일") :=
  c4_amended sampleResult sampleExc (.str "cl") (.str "디자인 스타일")
    (by decide)

/-- C8: adjusting with an empty exception list returns the original
result itself — no `ExceptionInfo` attached beyond what the input
carried, no other observable change. -/
theorem c8_noop (r : AnalysisResult) (cid : JVal) :
    ExceptionHandler.applyExceptions r [] cid = r ∧
    (ExceptionHandler.applyExceptions r [] cid).exceptionInfo = r.exceptionInfo :=
  ⟨rfl, rfl⟩

/-- C2: on a consistent input whose score the override raises (the
design-style aggregate moves 55 → 85, the overall 55 → 63),
`applyExceptions` recomputes `overallScore` but never assigns
`krdsCompliance.score`, which keeps its pre-override value 55 — the
invariant `overallScore == krdsCompliance.score` is broken. -/
theorem c2_invariant_broken :
    Consistent c2result ∧
    (ExceptionHandler.applyExceptions c2result sampleExc (.str "template-123")).overallScore
      = .num 63 ∧
    (ExceptionHandler.applyExceptions c2result sampleExc (.str "template-123")).krdsCompliance
      = some { score := .num 55, designTokensDetail := none, krdsComponents := none } := by
  refine ⟨⟨sampleDS, [mkStyleItem "button" 55], [mkStyleItem "layout" 55],
    [mkStyleItem "login" 55], rfl, rfl, rfl, rfl, by decide, by decide⟩, by decide, by decide⟩

theorem find?_congr {α : Type} {p q : α → Bool} (l : List α)
    (h : ∀ a ∈ l, p a = q a) : l.find? p = l.find? q := by
  induction l with
  | nil => rfl
  | cons a t ih =>
    have ha := h a (List.mem_cons_self a t)
    by_cases hqa : q a = true
    · rw [List.find?_cons_of_pos _ (by rw [ha]; exact hqa),
        List.find?_cons_of_pos _ hqa]
    · rw [List.find?_cons_of_neg _ (by rw [ha]; simpa using hqa),
        List.find?_cons_of_neg _ (by simpa using hqa)]
      exact ih fun x hx => h x (List.mem_cons_of_mem a hx)

theorem beq_eq_false_of_truthy {x k : JVal} (hx : x.truthy = false)
    (hk : k.truthy = true) : (x == k) = false := by
  rw [beq_eq_false_iff_ne]
  rintro rfl
  rw [hx] at hk
  exact Bool.false_ne_true hk

theorem mem_filteredKeys_iff (exc : List ExceptionReq) (k : JVal) :
    k ∈ (exc.map ExceptionHandler.resolvedMatchKey).filter JVal.truthy ↔
      specMatches exc k := by
  simp only [List.mem_filter, List.mem_map, specMatches]
  constructor
  · rintro ⟨⟨e, he, rfl⟩, ht⟩
    exact ⟨e, he, ht, rfl⟩
  · rintro ⟨e, he, ht, rfl⟩
    exact ⟨⟨e, he, rfl⟩, ht⟩

/-- C5: the per-section override rewrites exactly the items whose
resolved key (designated key field, else `name`, else `englishName`,
else the never-matching empty string) equals some exception's truthy
resolved matching key (`item_key`, else `item_name`, else the empty
string, which `filter(Boolean)` drops) to score 100, compliance `"준수"`
for a string-typed original else 100, empty issues, `excluded`, and the
first matching exception's reason (a default placeholder when it gave
none); all other items are returned unchanged. -/
theorem c5_adjustSection (items : List Item) (exc : List ExceptionReq) (kf : KeyField) :
    ExceptionHandler.adjustSection items exc kf = items.map (specAdjustItem exc kf) := by
  rw [adjustSection_eq_map]
  apply List.map_congr_left
  intro item _
  by_cases hm : specMatches exc (ExceptionHandler.resolvedItemKey item kf)
  · have hmem : ExceptionHandler.resolvedItemKey item kf ∈
        (exc.map ExceptionHandler.resolvedMatchKey).filter JVal.truthy :=
      (mem_filteredKeys_iff exc _).mpr hm
    have hkt : (ExceptionHandler.resolvedItemKey item kf).truthy = true :=
      (List.mem_filter.mp hmem).2
    have hfind : exc.find? (fun e =>
          jsOr e.item_key e.item_name == ExceptionHandler.resolvedItemKey item kf)
        = exc.find? (fun e =>
          ExceptionHandler.resolvedMatchKey e == ExceptionHandler.resolvedItemKey item kf) := by
      apply find?_congr
      intro e _
      unfold ExceptionHandler.resolvedMatchKey
      by_cases hv : (jsOr e.item_key e.item_name).truthy = true
      · rw [show jsOr (jsOr e.item_key e.item_name) (.str "")
            = jsOr e.item_key e.item_name from by rw [jsOr, if_pos hv]]
      · have hv' : (jsOr e.item_key e.item_name).truthy = false := by
          simpa using hv
        rw [show jsOr (jsOr e.item_key e.item_name) (.str "") = .str "" from by
          rw [jsOr, if_neg (by simp [hv'])]]
        rw [beq_eq_false_of_truthy hv' hkt,
          beq_eq_false_of_truthy (by decide) hkt]
    simp only [ExceptionHandler.adjustItem, specAdjustItem, if_pos hmem, if_pos hm,
      specRewrite, hfind]
  · have hmem : ExceptionHandler.resolvedItemKey item kf ∉
        (exc.map ExceptionHandler.resolvedMatchKey).filter JVal.truthy := by
      rw [mem_filteredKeys_iff]
      exact hm
    simp only [ExceptionHandler.adjustItem, specAdjustItem, if_neg hmem, if_neg hm]

theorem resolvedItemKey_adjustItem (exc : List ExceptionReq) (keys : List JVal)
    (kf : KeyField) (i : Item) :
    ExceptionHandler.resolvedItemKey (ExceptionHandler.adjustItem exc keys kf i) kf
      = ExceptionHandler.resolvedItemKey i kf := by
  by_cases hm : ExceptionHandler.resolvedItemKey i kf ∈ keys
  · simp only [ExceptionHandler.adjustItem, if_pos hm]
    cases kf <;> rfl
  · simp only [ExceptionHandler.adjustItem, if_neg hm]

theorem adjustItem_idem (exc : List ExceptionReq) (keys : List JVal)
    (kf : KeyField) (i : Item) :
    ExceptionHandler.adjustItem exc keys kf (ExceptionHandler.adjustItem exc keys kf i)
      = ExceptionHandler.adjustItem exc keys kf i := by
  by_cases hm : ExceptionHandler.resolvedItemKey i kf ∈ keys
  · obtain ⟨ic, it, inm, ien, isc, icp, iis, iex, ier⟩ := i
    by_cases hc : icp.isStr = true <;>
      cases kf <;>
        simp_all [ExceptionHandler.adjustItem, ExceptionHandler.resolvedItemKey,
          Item.get, JVal.isStr]
  · simp only [ExceptionHandler.adjustItem]
    simp [hm]

theorem adjustSection_idem (items : List Item) (exc : List ExceptionReq)
    (kf : KeyField) :
    ExceptionHandler.adjustSection (ExceptionHandler.adjustSection items exc kf) exc kf
      = ExceptionHandler.adjustSection items exc kf := by
  rw [adjustSection_eq_map items exc kf, adjustSection_eq_map, List.map_map]
  apply List.map_congr_left
  intro i _
  exact adjustItem_idem _ _ _ i

theorem adjustDesignTokensDetail_idem (d : List (String × Detail))
    (exc : List ExceptionReq) :
    ExceptionHandler.adjustDesignTokensDetail
        (ExceptionHandler.adjustDesignTokensDetail d exc) exc
      = ExceptionHandler.adjustDesignTokensDetail d exc := by
  unfold ExceptionHandler.adjustDesignTokensDetail
  rw [List.map_map]
  apply List.map_congr_left
  intro kv _
  by_cases hm : (JVal.str kv.1) ∈
      (exc.map ExceptionHandler.resolvedMatchKey).filter JVal.truthy
  · simp [Function.comp, hm, ExceptionHandler.adjustDetail]
  · simp [Function.comp, hm]

theorem adjustOptional_idem (sec : Option (List Item)) (g : List ExceptionReq)
    (kf : KeyField) :
    ExceptionHandler.adjustOptional (ExceptionHandler.adjustOptional sec g kf) g kf
      = ExceptionHandler.adjustOptional sec g kf := by
  rcases sec with _ | items
  · rfl
  · by_cases hg : g.isEmpty = true <;>
      simp [ExceptionHandler.adjustOptional, hg, adjustSection_idem]

theorem adjustSections_adjustSections (r : AnalysisResult) (exc : List ExceptionReq) :
    ExceptionHandler.adjustSections (ExceptionHandler.adjustSections r exc) exc
      = ExceptionHandler.adjustSections r exc := by
  rcases r with ⟨ov, ds, cs, bp, sp, kc, ei⟩
  rcases kc with _ | ⟨ks, dtd, kcs⟩
  · simp [ExceptionHandler.adjustSections, adjustOptional_idem]
  · rcases dtd with _ | d <;> rcases kcs with _ | citems <;>
      by_cases hg1 : (ExceptionHandler.groupExceptionsBySection exc
        (.str "디자인 스타일")).isEmpty = true <;>
      by_cases hg2 : (ExceptionHandler.groupExceptionsBySection exc
        (.str "컴포넌트")).isEmpty = true <;>
      simp [ExceptionHandler.adjustSections, adjustOptional_idem, hg1, hg2,
        adjustDesignTokensDetail_idem, adjustSection_idem]

/-- C7 (counterexample): applying the engine twice with the same
exception list is NOT the same as applying it once — on the §8-scenario
input the second application's `ExceptionInfo` records
`originalScore = 85` and `scoreDifference = 0` where the first recorded
`originalScore = 55` and `scoreDifference = 30`. -/
theorem c7_counterexample :
    ExceptionHandler.applyExceptions
        (ExceptionHandler.applyExceptions sampleResult sampleExc (.str "t"))
        sampleExc (.str "t")
      ≠ ExceptionHandler.applyExceptions sampleResult sampleExc (.str "t") := by
  decide

/-- C7 (amended): the second application reproduces the first result on
every field except the attached `ExceptionInfo`, which it rebuilds with
`originalScore = adjustedScore =` the already-adjusted overall score and
`scoreDifference = 0` (sections and scores are idempotent; the audit
record is not). -/
theorem c7_amended (r : AnalysisResult) (exc : List ExceptionReq) (cid : JVal)
    (hne : exc ≠ []) :
    ExceptionHandler.applyExceptions
        (ExceptionHandler.applyExceptions r exc cid) exc cid
      = { ExceptionHandler.applyExceptions r exc cid with
          exceptionInfo := some
            { applied := true
              checklistId := cid
              totalExceptions := exc.length
              originalScore := (ExceptionHandler.applyExceptions r exc cid).overallScore
              adjustedScore := (ExceptionHandler.applyExceptions r exc cid).overallScore
              scoreDifference := .num 0
              sections := ExceptionHandler.groupKeys exc } } := by
  have hne' : exc.isEmpty = false := by simpa [List.isEmpty_iff] using hne
  have L1 : ∀ (X : AnalysisResult) (v : JVal) (e : Option ExceptionInfo),
      ExceptionHandler.adjustSections
          { X with overallScore := v, exceptionInfo := e } exc
        = { ExceptionHandler.adjustSections X exc with
            overallScore := v, exceptionInfo := e } := by
    intro X v e
    rcases X with ⟨a, b, c, d, f, g, h⟩
    rfl
  have L2 : ∀ (X : AnalysisResult) (v : JVal) (e : Option ExceptionInfo),
      ExceptionHandler.calculateOverallScore
          { X with overallScore := v, exceptionInfo := e }
        = ExceptionHandler.calculateOverallScore X := by
    intro X v e
    rcases X with ⟨a, b, c, d, f, g, h⟩
    rfl
  simp only [ExceptionHandler.applyExceptions, hne', Bool.false_eq_true, if_false]
  rw [L1, adjustSections_adjustSections, L2]
  simp [jsSub]

theorem c6_monotonicity_witness :
    ∃ info : ExceptionInfo,
      (ExceptionHandler.applyExceptions c2result sampleExc (.str "cl6")).exceptionInfo
        = some info ∧
      ∃ o a : ℚ, info.originalScore = .num o ∧ info.adjustedScore = .num a ∧ o ≤ a :=
  c6_monotonicity c2result sampleExc (.str "cl6")
    ⟨sampleDS, [mkStyleItem "button" 55], [mkStyleItem "layout" 55],
      [mkStyleItem "login" 55], rfl, rfl, rfl, rfl, by decide, by decide⟩
    (by decide)

theorem c7_amended_witness :
    ExceptionHandler.applyExceptions
        (ExceptionHandler.applyExceptions sampleResult sampleExc (.str "t"))
        sampleExc (.str "t")
      = { ExceptionHandler.applyExceptions sampleResult sampleExc (.str "t") with
          exceptionInfo := some
            { applied := true
              checklistId := .str "t"
              totalExceptions := sampleExc.length
              originalScore :=
                (ExceptionHandler.applyExceptions sampleResult sampleExc (.str "t")).overallScore
              adjustedScore :=
                (ExceptionHandler.applyExceptions sampleResult sampleExc (.str "t")).overallScore
              scoreDifference := .num 0
              sections := ExceptionHandler.groupKeys sampleExc } } :=
  c7_amended sampleResult sampleExc (.str "t") (by decide)

/-- C9: zero violations classify as `"AA"`; a non-empty violation list
with no `critical`/`serious` impact classifies as `"A"`; at least one
`critical` violation classifies as `"None"`; and the §8 scenario report
(3 non-critical violations, 7 passes) yields level `"A"` with overall
compliance 70. -/
theorem c9_wcagLevel (axe : AxeResults) :
    (axe.violations = [] → (Analyzer.generateKWCAGReport axe).wcagLevel = "AA") ∧
    (axe.violations ≠ [] →
      (∀ v ∈ axe.violations, v.impact ≠ .str "critical" ∧ v.impact ≠ .str "serious") →
      (Analyzer.generateKWCAGReport axe).wcagLevel = "A") ∧
    ((∃ v ∈ axe.violations, v.impact = .str "critical") →
      (Analyzer.generateKWCAGReport axe).wcagLevel = "None") ∧
    ((Analyzer.generateKWCAGReport c9axe).wcagLevel = "A" ∧
      (Analyzer.generateKWCAGReport c9axe).overallCompliance = 70) := by
  refine ⟨?_, ?_, ?_, by decide⟩
  · intro h
    simp [Analyzer.generateKWCAGReport, h]
  · intro hne hno
    have hlen : ¬ axe.violations.length = 0 := by
      simpa [List.length_eq_zero] using hne
    have hfilter : axe.violations.filter
        (fun v => v.impact == .str "critical" || v.impact == .str "serious") = [] := by
      rw [List.filter_eq_nil]
      intro v hv
      have h := hno v hv
      simp [h.1, h.2]
    simp [Analyzer.generateKWCAGReport, hlen, hfilter]
  · rintro ⟨v, hv, himp⟩
    have hlen : ¬ axe.violations.length = 0 := by
      intro h0
      rw [List.length_eq_zero] at h0
      rw [h0] at hv
      exact absurd hv (List.not_mem_nil v)
    have hvf : v ∈ axe.violations.filter
        (fun v => v.impact == .str "critical" || v.impact == .str "serious") :=
      List.mem_filter.mpr ⟨hv, by simp [himp]⟩
    have hfpos : ¬ (axe.violations.filter
        (fun v => v.impact == .str "critical" || v.impact == .str "serious")).length = 0 := by
      intro h0
      rw [List.length_eq_zero] at h0
      rw [h0] at hvf
      exact absurd hvf (List.not_mem_nil v)
    simp [Analyzer.generateKWCAGReport, hlen, hfpos]

theorem c9_wcagLevel_witness :
    (Analyzer.generateKWCAGReport c9critAxe).wcagLevel = "None" ∧
    (Analyzer.generateKWCAGReport { violations := [], passes := [] }).wcagLevel = "AA" :=
  ⟨(c9_wcagLevel c9critAxe).2.2.1 (by decide),
    (c9_wcagLevel { violations := [], passes := [] }).1 rfl⟩

/-- C10: each `byCategory` value is 100 when its bucket (as assigned by
the priority-ordered keyword patterns of `categorizeRule`) holds no
violation and no pass, equals the rounded percentage
`round(100 * passes / (passes + violations))` over the bucket's records
otherwise, and always lies in [0,100]. -/
theorem c10_byCategory (axe : AxeResults) (p : Principle) :
    (Analyzer.bucketViolations axe p + Analyzer.bucketPasses axe p = 0 →
      (Analyzer.generateKWCAGReport axe).byCategory p = 100) ∧
    (0 < Analyzer.bucketViolations axe p + Analyzer.bucketPasses axe p →
      (Analyzer.generateKWCAGReport axe).byCategory p
        = jsRound ((Analyzer.bucketPasses axe p : ℚ) /
            (Analyzer.bucketViolations axe p + Analyzer.bucketPasses axe p) * 100)) ∧
    0 ≤ (Analyzer.generateKWCAGReport axe).byCategory p ∧
    (Analyzer.generateKWCAGReport axe).byCategory p ≤ 100 := by
  have hbc : (Analyzer.generateKWCAGReport axe).byCategory p =
      if 0 < Analyzer.bucketViolations axe p + Analyzer.bucketPasses axe p
      then jsRound ((Analyzer.bucketPasses axe p : ℚ) /
        (Analyzer.bucketViolations axe p + Analyzer.bucketPasses axe p) * 100)
      else 100 := rfl
  refine ⟨?_, ?_, ?_, ?_⟩
  · intro h
    rw [hbc, if_neg (by omega)]
  · intro h
    rw [hbc, if_pos h]
  · rw [hbc]
    split
    · apply jsRound_nonneg
      positivity
    · norm_num
  · rw [hbc]
    split
    next h =>
      apply jsRound_le_100
      have hpos : (0 : ℚ) < (Analyzer.bucketViolations axe p : ℚ) +
          (Analyzer.bucketPasses axe p : ℚ) := by
        exact_mod_cast h
      rw [div_mul_eq_mul_div, div_le_iff hpos]
      have hle : (Analyzer.bucketPasses axe p : ℚ) ≤
          (Analyzer.bucketViolations axe p : ℚ) + (Analyzer.bucketPasses axe p : ℚ) := by
        have : (0 : ℚ) ≤ (Analyzer.bucketViolations axe p : ℚ) := by positivity
        linarith
      nlinarith
    · norm_num

theorem c10_byCategory_witness :
    (Analyzer.generateKWCAGReport c9axe).byCategory .operable = 100 ∧
    (Analyzer.generateKWCAGReport c9axe).byCategory .understandable
      = jsRound ((Analyzer.bucketPasses c9axe .understandable : ℚ) /
          (Analyzer.bucketViolations c9axe .understandable +
            Analyzer.bucketPasses c9axe .understandable) * 100) :=
  ⟨(c10_byCategory c9axe .operable).1 (by decide),
    (c10_byCategory c9axe .understandable).2.1 (by decide)⟩
